import Mathlib

/-!
# Static-site generator — shallow embedding and verification

A shallow embedding of the build pipeline of the HTMX static-page
generator: the output-path mapping, URL mapping and navigation of
`src/core/builder.ts`, the metadata normalizer of `src/core/page-metadata.ts`,
the tag-based template engine of `src/templates/tag-engine.ts`, and the
build orchestrator's artifact generation.  Strings are modelled as
`List Char` pipelines wrapped in `String`; JavaScript string/regex
primitives (`trim`, `toLowerCase`, `slice`, the specific regexes used by
the sources) are modelled explicitly.  Components whose sources are not
part of the repository snapshot (the label footer, navigation bar,
label-index renderer, page-index and sitemap generators) are modelled
from the specification and marked as such in their doc comments.
-/

/-! ## JavaScript string primitives -/

/-- The whitespace class used by JavaScript `\s`, `String.prototype.trim`
and `String.prototype.split(/\s+/)` (core ASCII part plus NBSP). -/
def isJsWs (c : Char) : Bool :=
  c = ' ' ∨ c = '\t' ∨ c = '\n' ∨ c = '\r' ∨ c = '\x0b' ∨ c = '\x0c' ∨ c = ' '

/-- `String.prototype.trim` on a character list. -/
def jsTrimL (l : List Char) : List Char :=
  ((l.dropWhile isJsWs).reverse.dropWhile isJsWs).reverse

/-- `String.prototype.trim`. -/
def jsTrim (s : String) : String := ⟨jsTrimL s.data⟩

/-- `String.prototype.toLowerCase` (code-point lowering; the sources only
apply it to ASCII label text). -/
def jsToLowerL (l : List Char) : List Char := l.map Char.toLower

/-- Lower-case ASCII letters and digits: the class `[a-z0-9]`. -/
def isSlugChar (c : Char) : Bool :=
  (('a' ≤ c ∧ c ≤ 'z') ∨ ('0' ≤ c ∧ c ≤ '9'))

/-- One pass of `.replace(/[^a-z0-9]+/g, '-')`: every maximal run of
characters outside `[a-z0-9]` becomes a single hyphen.  `prevHyphen`
records whether the previous output character was the hyphen emitted for
the current run. -/
def collapseNonSlug (prevHyphen : Bool) : List Char → List Char
  | [] => []
  | c :: cs =>
    if isSlugChar c then c :: collapseNonSlug false cs
    else if prevHyphen then collapseNonSlug true cs
    else '-' :: collapseNonSlug true cs

/-- `.replace(/^-+|-+$/g, '')`: strip leading and trailing hyphen runs. -/
def trimHyphens (l : List Char) : List Char :=
  ((l.dropWhile (· = '-')).reverse.dropWhile (· = '-')).reverse

/-- The shared slug pipeline of both sources:
`toLowerCase → trim → collapse non-[a-z0-9] runs to '-' → trim hyphens`. -/
def slugPipeline (l : List Char) : List Char :=
  trimHyphens (collapseNonSlug false (jsTrimL (jsToLowerL l)))

/-- `generateSlug` from `src/core/page-metadata.ts` (build side). -/
def generateSlug (text : String) : String := ⟨slugPipeline text.data⟩

/-- `labelSlug` from the client bundle in `src/templates/tag-engine.ts`
(browser side; declared to match the server-side slug exactly). -/
def labelSlug (text : String) : String := ⟨slugPipeline text.data⟩

/-! ## Output-path mapping (`SiteBuilder.getOutputPath`) -/

/-- Backslash-to-slash normalization, `.replace(/\\/g, '/')`. -/
def normSlashes (l : List Char) : List Char :=
  l.map fun c => if c = '\\' then '/' else c

/-- The final path component (characters after the last `'/'`), as used
by POSIX `path.basename`. -/
def posixBasename (l : List Char) : List Char :=
  (l.reverse.takeWhile (· ≠ '/')).reverse

/-- The suffix of a basename after its last dot. -/
def lastDotSuffix (b : List Char) : List Char :=
  (b.reverse.takeWhile (· ≠ '.')).reverse

/-- Node's `path.extname` on a basename: the suffix from the last dot,
empty when there is no dot or when the only dot starts the name (dotfile). -/
def extOfBasename (b : List Char) : List Char :=
  if '.' ∈ b then
    if b.take (b.length - (lastDotSuffix b).length - 1) = [] then []
    else '.' :: lastDotSuffix b
  else []

/-- POSIX `path.extname`. -/
def extname (p : String) : String := ⟨extOfBasename (posixBasename p.data)⟩

/-- The shared tail of the output-path mapping: an `index`-named base maps
to `<base>.html`, anything else to `<base>/index.html`. -/
def outputFromBase (base : List Char) : String :=
  if base = "index".data ∨ List.isSuffixOf "/index".data base then
    ⟨base ++ ".html".data⟩
  else
    ⟨base ++ "/index.html".data⟩

/-- `SiteBuilder.getOutputPath` (`src/core/builder.ts:91`): strip the
extension with `slice(0, -ext.length)`, normalize backslashes, then apply
the `index` rule.  Note JavaScript's `slice(0, -0)` is the empty string,
so a path whose `extname` is empty yields the empty base. -/
def getOutputPath (relativePath : String) : String :=
  outputFromBase
    (if (extname relativePath).data = [] then []
     else normSlashes
       (relativePath.data.take
         (relativePath.data.length - (extname relativePath).data.length)))

/-- The mapping as worded by the specification (§4.6): strip the `.md`
extension of the content file, normalize backslashes, then apply the
`index` rule.  Used to compare the spec's description with the code. -/
def specOutputPath (relativePath : String) : String :=
  outputFromBase
    (normSlashes (relativePath.data.take (relativePath.data.length - 3)))

/-! ## Frontmatter values and the metadata normalizer
(`src/core/page-metadata.ts`)

`parseFrontmatter` (gray-matter) is an external collaborator: a document
is modelled as its relative path, its parsed frontmatter map (`none` when
the YAML header is malformed and parsing throws) and its body markup. -/

/-- A raw frontmatter value as JavaScript sees it: string, number,
array-of-strings, or null. -/
inductive FmVal where
  | str (s : String)
  | num (n : Int)
  | arr (l : List String)
  | null

deriving DecidableEq

/-- Raw frontmatter data: `Record<string, unknown>` as an association
list in key order. -/
def FmData := List (String × FmVal)

deriving instance DecidableEq for FmData

deriving instance DecidableEq for Except

/-- Property lookup, `data['key']` (`none` = `undefined`). -/
def fmGet (data : FmData) (k : String) : Option FmVal :=
  (List.find? (fun p => p.1 = k) data).map Prod.snd

/-- JavaScript falsiness of a possibly-absent frontmatter value
(`undefined`, `null`, `''` and `0` are falsy; arrays are always truthy). -/
def jsFalsy : Option FmVal → Bool
  | none => true
  | some FmVal.null => true
  | some (FmVal.str s) => s = ""
  | some (FmVal.num n) => n = 0
  | some (FmVal.arr _) => false

/-- JavaScript `String(value)` coercion. -/
def jsValToString : FmVal → String
  | FmVal.str s => s
  | FmVal.num n => toString n
  | FmVal.arr l => String.intercalate "," l
  | FmVal.null => "null"

/-- `(data[k] as string) || dflt`: the raw value when truthy (coerced to
a string), else the default. -/
def strOrDefault (data : FmData) (k dflt : String) : String :=
  if jsFalsy (fmGet data k) then dflt
  else jsValToString ((fmGet data k).getD FmVal.null)

/-- JavaScript `Number(string)` restricted to the integer literals the
`Order` header uses (`none` = `NaN`; the empty/blank string is `0`). -/
def jsParseNumber (s : String) : Option Int :=
  let t := jsTrimL s.data
  if t = [] then some 0
  else
    let core : List Char → Option Int := fun l =>
      if l ≠ [] ∧ l.all Char.isDigit then
        some (l.foldl (fun a c => a * 10 + ((c.toNat : Int) - 48)) 0)
      else none
    match t with
    | '-' :: rest => (core rest).map Neg.neg
    | '+' :: rest => core rest
    | l => core l

/-- JavaScript `Number(value)` on frontmatter values. -/
def jsNumber : FmVal → Option Int
  | FmVal.num n => some n
  | FmVal.null => some 0
  | FmVal.str s => jsParseNumber s
  | FmVal.arr [] => some 0
  | FmVal.arr [s] => jsParseNumber s
  | FmVal.arr _ => none

/-- `parseStringArray` from `src/core/page-metadata.ts`: falsy → `[]`,
array → itself, scalar → one-element array. -/
def parseStringArray : Option FmVal → List String
  | v =>
    if jsFalsy v then []
    else match v with
      | some (FmVal.arr l) => l
      | some w => [jsValToString w]
      | none => []

/-- The typed page-metadata record of `src/core/page-metadata.ts`. -/
structure PageMetadata where
  shortUri : String
  title : String
  type : String
  category : String
  labels : List String
  parent : String
  order : Int
  author : String
  date : Option String
  description : String
  keywords : List String
  template : String

deriving DecidableEq

/-- `VALID_TYPES`. -/
def validTypes : List String := ["page", "post", "section"]

/-- `parsePageMetadata` (`src/core/page-metadata.ts:25`): throws on a
falsy `Short-URI` and on an invalid `Type`; defaults `Parent` to `root`,
`Order` to 999 (also on `NaN`), `Template` to `default`; `title` falls
back to `Title` then to the trimmed Short-URI. -/
def parsePageMetadata (data : FmData) : Except String PageMetadata := do
  let shortV ←
    match fmGet data "Short-URI" with
    | none => Except.error "Short-URI is required"
    | some v =>
      if jsFalsy (some v) then Except.error "Short-URI is required"
      else Except.ok v
  let shortUri := jsTrim (jsValToString shortV)
  let typeStr ←
    if jsFalsy (fmGet data "Type") then Except.ok "page"
    else
      match fmGet data "Type" with
      | some (FmVal.str s) =>
        if s ∈ validTypes then Except.ok s
        else Except.error ("Invalid Type: " ++ s)
      | _ => Except.error "Invalid Type"
  let parent :=
    match fmGet data "Parent" with
    | none => "root"
    | some FmVal.null => "root"
    | some (FmVal.str "") => "root"
    | some v => jsValToString v
  let order : Int :=
    match fmGet data "Order" with
    | none => 999
    | some FmVal.null => 999
    | some v => (jsNumber v).getD 999
  let title :=
    if ¬ jsFalsy (fmGet data "title") then
      jsValToString ((fmGet data "title").getD FmVal.null)
    else if ¬ jsFalsy (fmGet data "Title") then
      jsValToString ((fmGet data "Title").getD FmVal.null)
    else shortUri
  Except.ok
    { shortUri
      title
      type := typeStr
      category := strOrDefault data "Category" ""
      labels := parseStringArray (fmGet data "Labels")
      parent
      order
      author := strOrDefault data "Author" ""
      date :=
        if jsFalsy (fmGet data "Date") then none
        else some (jsValToString ((fmGet data "Date").getD FmVal.null))
      description := strOrDefault data "Description" ""
      keywords := parseStringArray (fmGet data "Keywords")
      template := strOrDefault data "Template" "default" }

/-- A scanned content document: relative path, parsed frontmatter
(`none` when the YAML header is malformed and `parseFrontmatter` throws),
and body markup. -/
structure Doc where
  relativePath : String
  fm : Option FmData
  body : String

deriving DecidableEq

/-- `entry.name` of a scanned file: the final path component. -/
def docName (d : Doc) : String := ⟨posixBasename d.relativePath.data⟩

/-- `parsePageMetadata` applied to a document's raw content: a malformed
header propagates as an error. -/
def parsePageMetadataDoc (d : Doc) : Except String PageMetadata :=
  match d.fm with
  | none => Except.error "malformed frontmatter header"
  | some data => parsePageMetadata data

/-! ## URL paths and navigation (`src/core/builder.ts`) -/

/-- `replace(/\.md$/, '')`. -/
def stripMdSuffix (l : List Char) : List Char :=
  if List.isSuffixOf ".md".data l then l.take (l.length - 3) else l

/-- `SiteBuilder.getUrlPath` (`src/core/builder.ts:366`): strip `.md`,
normalize backslashes, collapse `index` to the directory, ensure a
leading slash, prefix the base path. -/
def getUrlPath (basePath : String) (relativePath : String) : String :=
  let u1 := normSlashes (stripMdSuffix relativePath.data)
  if u1 = "index".data then basePath ++ "/"
  else
    let u2 := if List.isSuffixOf "/index".data u1 then u1.take (u1.length - 6) else u1
    let u3 := if u2.head? = some '/' then u2 else '/' :: u2
    basePath ++ (⟨u3⟩ : String)

/-- A navigation item (`src/components/navigation.ts`); `active` is
absent (falsy) until the per-page pass sets it. -/
structure NavItem where
  label : String
  href : String
  active : Bool := false
  order : Option Int := none

deriving DecidableEq

/-- The per-document body of `SiteBuilder.generateNavigation`'s loop:
a parse failure or a non-root parent contributes nothing; a root-parented
page contributes one item (the label falls back from the title to the
file name without `.md`). -/
def rootNavItem (basePath : String) (d : Doc) : Option NavItem :=
  match parsePageMetadataDoc d with
  | Except.error _ => none
  | Except.ok m =>
    if m.parent = "root" then
      some { label := if m.title = "" then ⟨stripMdSuffix (docName d).data⟩ else m.title
             href := getUrlPath basePath d.relativePath
             order := some m.order }
    else none

/-- Model of `String.prototype.localeCompare` under the default locale,
by code-point comparison (sign convention of the source's comparator). -/
def localeCompareModel (a b : String) : Int :=
  if a < b then -1 else if b < a then 1 else 0

/-- The sort comparator of `generateNavigation`:
`(a.order ?? 999) - (b.order ?? 999)`, ties broken by `localeCompare`. -/
def navCompare (a b : NavItem) : Int :=
  let orderDiff := a.order.getD 999 - b.order.getD 999
  if orderDiff ≠ 0 then orderDiff else localeCompareModel a.label b.label

/-- The ordering induced by the comparator (`comparator ≤ 0`). -/
def navLe (a b : NavItem) : Prop := navCompare a b ≤ 0

instance : DecidableRel navLe := fun a b =>
  inferInstanceAs (Decidable (navCompare a b ≤ 0))

/-- `SiteBuilder.generateNavigation` (`src/core/builder.ts:197`):
one item per parseable root-parented page, stably sorted by the
order-then-title comparator (`Array.prototype.sort` is stable). -/
def generateNavigation (basePath : String) (docs : List Doc) : List NavItem :=
  List.insertionSort navLe (docs.filterMap (rootNavItem basePath))

/-- Insertion-ordered set-to-array conversion (`[...new Set(...)]`). -/
def dedupKeepFirst (l : List String) : List String :=
  l.foldl (fun acc x => if x ∈ acc then acc else acc ++ [x]) []

/-- `SiteBuilder.collectSiteLabels` (`src/core/builder.ts:271`): the
union of the labels of every parseable document, first-occurrence
ordered; unparseable documents are skipped. -/
def collectSiteLabels (docs : List Doc) : List String :=
  dedupKeepFirst
    ((docs.map fun d =>
      match parsePageMetadataDoc d with
      | Except.ok m => m.labels
      | Except.error _ => []).flatten)

/-- `SiteBuilder.isActivePath` (`src/core/builder.ts:390`). -/
def isActivePath (basePath href filePath : String) : Bool :=
  let cleanHref : String :=
    if basePath ≠ "" ∧ List.isPrefixOf basePath.data href.data then
      (if href.data.drop basePath.data.length = [] then "/"
       else ⟨href.data.drop basePath.data.length⟩)
    else href
  let urlPath : List Char :=
    '/' :: normSlashes
      (if List.isSuffixOf ".md".data filePath.data then
        filePath.data.take (filePath.data.length - 3) ++ ".html".data
      else filePath.data)
  if cleanHref = "/" then
    urlPath = "/index.html".data ∨ filePath = "index.md"
  else
    List.isPrefixOf (cleanHref.data ++ ['/']) urlPath ∨
      urlPath = cleanHref.data ++ ".html".data

/-! ## Dates -/

/-- A calendar date as the tag engine consumes it (UTC-anchored). -/
structure JsDate where
  year : Nat
  month : Nat
  day : Nat

deriving DecidableEq

/-- Long English month names, as `toLocaleDateString('en-US')` yields. -/
def monthName : Nat → String
  | 1 => "January" | 2 => "February" | 3 => "March" | 4 => "April"
  | 5 => "May" | 6 => "June" | 7 => "July" | 8 => "August"
  | 9 => "September" | 10 => "October" | 11 => "November" | 12 => "December"
  | _ => ""

/-- Two-digit zero padding. -/
def pad2 (n : Nat) : String := if n < 10 then "0" ++ toString n else toString n

/-- `date.toISOString().slice(0, 10)`. -/
def isoDateSlice (d : JsDate) : String :=
  toString d.year ++ "-" ++ pad2 d.month ++ "-" ++ pad2 d.day

/-- `formatDate` from `src/templates/tag-engine.ts:44`: locale-fixed,
UTC-anchored `"February 1, 2026"` shape. -/
def formatDate (d : JsDate) : String :=
  monthName d.month ++ " " ++ toString d.day ++ ", " ++ toString d.year

/-! ## Reading time (`src/templates/tag-engine.ts:35`) -/

/-- One pass of `.replace(/<[^>]*>/g, ' ')`: a `<` with a later `>`
swallows up to that first `>` and becomes a space; an unclosed `<`
stays. -/
def stripTags : List Char → List Char
  | [] => []
  | c :: cs =>
    if c = '<' ∧ '>' ∈ cs then
      ' ' :: stripTags (cs.dropWhile (· ≠ '>')).tail
    else c :: stripTags cs
termination_by l => l.length
decreasing_by
  · have h1 : (cs.dropWhile (· ≠ '>')).length ≤ cs.length :=
      (List.dropWhile_sublist _).length_le
    have h2 : ((cs.dropWhile (· ≠ '>')).tail).length
        ≤ (cs.dropWhile (· ≠ '>')).length := (List.tail_sublist _).length_le
    simp only [List.length_cons]
    omega
  · simp only [List.length_cons]; omega

/-- Count of maximal non-whitespace runs:
`split(/\s+/).filter(w => w.length > 0).length`. -/
def countWords (inWord : Bool) : List Char → Nat
  | [] => 0
  | c :: cs =>
    if isJsWs c then countWords false cs
    else (if inWord then 0 else 1) + countWords true cs

/-- `estimateReadingTime`: strip tags, count words,
`max(1, round(words / 200))`. -/
def estimateReadingTime (html : String) : Nat :=
  max 1 ((countWords false (stripTags html.data) + 100) / 200)

/-! ## Template context and component renderers -/

/-- `TemplateContext` from `src/templates/template-registry.ts`. -/
structure TemplateContext where
  title : String
  content : String
  description : String
  keywords : String
  basePath : String
  navigation : List NavItem
  siteLabels : List String
  frontmatter : FmData
  cssFiles : List String
  jsFiles : List String
  author : String
  date : Option JsDate
  category : String
  labels : List String
  type : String

deriving DecidableEq

/-- Modelled from the spec (§5): `renderHead` from
`src/templates/helpers.ts`, which is absent from the snapshot (only its
test `helpers.test.ts` is staged) — doctype, meta tags, base path, title
and asset links, at the program's call shape (no `lang` option, so the
default `en`); every assertion of `helpers.test.ts` holds of this
embedding. -/
def renderHead (title basePath description keywords : String)
    (cssFiles jsFiles : List String) : String :=
  let descTag :=
    if description ≠ "" then
      "\n    <meta name=\"description\" content=\"" ++ description ++ "\">"
    else ""
  let kwTag :=
    if keywords ≠ "" then
      "\n    <meta name=\"keywords\" content=\"" ++ keywords ++ "\">"
    else ""
  let extraCss := String.join
    (cssFiles.map fun f => "\n    <link rel=\"stylesheet\" href=\"" ++ f ++ "\">")
  let extraJs := String.join
    (jsFiles.map fun f => "\n    <script src=\"" ++ f ++ "\"></script>")
  "<!DOCTYPE html>\n<html lang=\"en\">\n<head>\n    <meta charset=\"UTF-8\">\n" ++
    "    <meta name=\"viewport\" content=\"width=device-width, initial-scale=1.0\">" ++
    descTag ++ kwTag ++
    "\n    <meta name=\"base-path\" content=\"" ++ basePath ++ "\">\n    <title>" ++
    title ++ "</title>\n    <link rel=\"stylesheet\" href=\"" ++ basePath ++
    "/assets/main.css\">" ++ extraCss ++ extraJs ++ "\n</head>"

/-- `renderFootScripts` from `src/templates/helpers.ts`. -/
def renderFootScripts (basePath : String) : String :=
  "    <script src=\"" ++ basePath ++ "/assets/main.js\"></script>"

/-- `Navigation.render` (`src/components/navigation.ts`): the white top
bar with one styled link per item, joined by newlines; the active item
gets the blue classes and `aria-current="page"`. The base `Component`'s
`classNames` (`component.ts`, absent from the snapshot) joins its
arguments with single spaces dropping falsy ones (`docs/components.md`),
so the default empty `className` vanishes from the `<nav>` class list;
the builder never sets `hxBoost` on a `NavItem`, so that attribute is
always the empty string here. -/
def navigationRender (items : List NavItem) : String :=
  "<nav class=\"bg-white shadow-sm border-b border-gray-200\">\n" ++
    "    <div class=\"max-w-7xl mx-auto px-4 sm:px-6 lg:px-8\">\n" ++
    "        <div class=\"flex flex-wrap gap-1 sm:gap-2 py-3 sm:py-0 sm:h-16 items-center\">\n" ++
    String.intercalate "\n" (items.map fun it =>
      "            <a href=\"" ++ it.href ++ "\" class=\"" ++
        "px-2 sm:px-4 py-1.5 sm:py-2 text-xs sm:text-sm font-medium rounded-md transition-colors duration-200 " ++
        (if it.active then "text-blue-600 bg-blue-50"
         else "text-gray-700 hover:text-blue-600 hover:bg-gray-50") ++
        "\"" ++ (if it.active then " aria-current=\"page\"" else "") ++ ">" ++
        it.label ++ "</a>") ++
    "\n        </div>\n    </div>\n</nav>"

/-- Modelled from the spec: `LabelFooter.render`
(`src/components/label-footer.ts` is not in the snapshot) — the
site-wide label cloud footer, one `.label-link` element per label. -/
def labelFooterRender (labels : List String) : String :=
  "<footer class=\"label-footer\">" ++
    String.join (labels.map fun l =>
      "<a href=\"#\" class=\"label-link\" data-label=\"" ++ l ++ "\">" ++ l ++ "</a>") ++
    "</footer>"

/-- The `blog-header` composite from `src/templates/tag-engine.ts:85`. -/
def blogHeaderHtml (ctx : TemplateContext) : String :=
  let readTime := estimateReadingTime ctx.content
  let bylineParts :=
    (if ctx.author ≠ "" then
      ["<span class=\"byline\">" ++ ctx.author ++ "</span>"] else []) ++
    (match ctx.date with
     | some d =>
       ["<time datetime=\"" ++ isoDateSlice d ++ "\">" ++ formatDate d ++ "</time>"]
     | none => []) ++
    ["<span class=\"reading-time\">" ++ toString readTime ++ " min read</span>"]
  let bylineHtml :=
    if bylineParts ≠ [] then
      "<div class=\"flex flex-wrap items-center gap-3 text-sm text-gray-500 mt-2\">" ++
        String.intercalate " · " bylineParts ++ "</div>"
    else ""
  let categoryHtml :=
    if ctx.category ≠ "" then
      "<span class=\"inline-block bg-blue-100 text-blue-800 text-xs font-medium px-2.5 py-0.5 rounded\">" ++
        ctx.category ++ "</span>"
    else ""
  let labelsHtml :=
    if ctx.labels.length > 0 then
      "<div class=\"flex flex-wrap gap-2 mt-3\">" ++
        String.join (ctx.labels.map fun l =>
          "<span class=\"text-xs bg-gray-100 text-gray-600 px-2 py-1 rounded-full\">" ++
            l ++ "</span>") ++ "</div>"
    else ""
  "<header class=\"mb-8 border-b border-gray-200 pb-6\">\n        " ++
    categoryHtml ++ "\n        <h1 class=\"text-3xl font-bold text-gray-900 mt-2\">" ++
    ctx.title ++ "</h1>\n        " ++ bylineHtml ++ "\n        " ++ labelsHtml ++
    "\n      </header>"

/-- `resolveTag` (`src/templates/tag-engine.ts:57`): the switch over the
built-in tag names; unknown tags fall through to the literal
`{{tagName}}`. -/
def resolveTag (tagName : String) (ctx : TemplateContext) : String :=
  if tagName = "head" then
    renderHead ctx.title ctx.basePath ctx.description ctx.keywords
      ctx.cssFiles ctx.jsFiles
  else if tagName = "navigation" then
    (if ctx.navigation.length > 0 then navigationRender ctx.navigation else "")
  else if tagName = "content" then ctx.content
  else if tagName = "label-footer" then
    (if ctx.siteLabels.length > 0 then labelFooterRender ctx.siteLabels else "")
  else if tagName = "foot-scripts" then renderFootScripts ctx.basePath
  else if tagName = "blog-header" then blogHeaderHtml ctx
  else if tagName = "title" then ctx.title
  else if tagName = "description" then ctx.description
  else if tagName = "keywords" then ctx.keywords
  else if tagName = "author" then ctx.author
  else if tagName = "category" then ctx.category
  else if tagName = "basePath" then ctx.basePath
  else if tagName = "formatted-date" then
    (match ctx.date with | some d => formatDate d | none => "")
  else if tagName = "reading-time" then
    toString (estimateReadingTime ctx.content) ++ " min read"
  else if tagName = "category-pill" then
    (if ctx.category ≠ "" then
      "<span class=\"inline-block bg-blue-100 text-blue-800 text-xs font-medium px-2.5 py-0.5 rounded\">" ++
        ctx.category ++ "</span>"
    else "")
  else if tagName = "label-badges" then
    (if ctx.labels.length > 0 then
      String.join (ctx.labels.map fun l =>
        "<span class=\"text-xs bg-gray-100 text-gray-600 px-2 py-1 rounded-full\">" ++
          l ++ "</span>")
    else "")
  else "\x7b\x7b" ++ tagName ++ "\x7d\x7d"

/-- The lazy `\S+?\}\}` scan: having consumed at least one non-space
character, stop at the first `}}`. -/
def scanTagNameAux (acc : List Char) : List Char → Option (List Char × List Char)
  | [] => none
  | c :: cs =>
    if (c :: cs).take 2 = "\x7d\x7d".data then some (acc, (c :: cs).drop 2)
    else if isJsWs c then none
    else scanTagNameAux (acc ++ [c]) cs

/-- Match `(\S+?)\}\}`: at least one non-space character, then `}}`. -/
def scanTagName : List Char → Option (List Char × List Char)
  | [] => none
  | c :: cs => if isJsWs c then none else scanTagNameAux [c] cs

/-- Attempt the placeholder regex `\{\{(\S+?)\}\}` at the head of `l`. -/
def tryTag (l : List Char) : Option (List Char × List Char) :=
  if l.take 2 = "\x7b\x7b".data then scanTagName (l.drop 2) else none

lemma scanTagNameAux_length (l : List Char) :
    ∀ acc name r, scanTagNameAux acc l = some (name, r) →
      r.length + 2 ≤ l.length := by
  induction l with
  | nil => intro acc name r h; simp [scanTagNameAux] at h
  | cons c cs ih =>
    intro acc name r h
    rw [scanTagNameAux] at h
    split_ifs at h with h1 h2
    · have hlen := congrArg List.length h1
      have h2 : ("\x7d\x7d".data).length = 2 := rfl
      rw [List.length_take, h2] at hlen
      simp only [Option.some.injEq, Prod.mk.injEq] at h
      have hr : r = (c :: cs).drop 2 := h.2.symm
      subst hr
      rw [List.length_drop]
      omega
    · have := ih _ _ _ h
      simp only [List.length_cons]
      omega

lemma scanTagName_length (l : List Char) (name r : List Char)
    (h : scanTagName l = some (name, r)) : r.length + 2 ≤ l.length := by
  cases l with
  | nil => simp [scanTagName] at h
  | cons c cs =>
    rw [scanTagName] at h
    split_ifs at h
    have := scanTagNameAux_length cs _ _ _ h
    simp only [List.length_cons]
    omega

lemma tryTag_length (l : List Char) (name r : List Char)
    (h : tryTag l = some (name, r)) : r.length < l.length := by
  rw [tryTag] at h
  by_cases h1 : l.take 2 = "\x7b\x7b".data
  swap
  · rw [if_neg h1] at h; exact absurd h (by simp)
  rw [if_pos h1] at h
  have e1 := scanTagName_length _ _ _ h
  have e4 : (l.take 2).length = 2 := by rw [h1]; rfl
  have e5 : (l.take 2).length ≤ l.length := by rw [List.length_take]; omega
  have e6 : (l.drop 2).length = l.length - 2 := by rw [List.length_drop]
  omega

/-- Pass 2 of `processTemplate`: the global placeholder replacement. -/
def processTags (ctx : TemplateContext) (l : List Char) : List Char :=
  match h : tryTag l with
  | some (name, rest) =>
    (resolveTag ⟨name⟩ ctx).data ++ processTags ctx rest
  | none =>
    match l with
    | [] => []
    | c :: cs => c :: processTags ctx cs
termination_by l.length
decreasing_by
  · exact tryTag_length l _ _ h
  · simp [List.length_cons]

/-- The spec's end-to-end example: `Short-URI: blog, Parent: root,
Order: 2` listed before its sibling `Short-URI: home, Parent: root,
Order: 1`. -/
def docBlogNav : Doc :=
  { relativePath := "blog.md"
    fm := some [("Short-URI", FmVal.str "blog"), ("title", FmVal.str "Blog"),
                ("Parent", FmVal.str "root"), ("Order", FmVal.num 2)]
    body := "# Blog" }

def docHomeNav : Doc :=
  { relativePath := "home.md"
    fm := some [("Short-URI", FmVal.str "home"), ("title", FmVal.str "Home"),
                ("Parent", FmVal.str "root"), ("Order", FmVal.num 1)]
    body := "# Home" }

/-- A document with a well-formed header but no `Short-URI`. -/
def docNoShortUri : Doc :=
  { relativePath := "broken.md"
    fm := some [("title", FmVal.str "Broken"), ("Type", FmVal.str "page")]
    body := "# Broken" }

/-! ## The build orchestrator (`src/core/builder.ts` and
`src/scripts/build.ts`) -/

/-- Concatenation of a list of strings (`Array.prototype.join('')`). -/
def concatAll (l : List String) : String := ⟨(l.map String.data).flatten⟩

/-- Append `v` to the bucket of key `k`, creating the bucket at the end
on a fresh key (JavaScript `Map` insertion-order semantics). -/
def assocAppend {α : Type} (k : String) (v : α) :
    List (String × List α) → List (String × List α)
  | [] => [(k, [v])]
  | (k', vs) :: rest =>
    if k' = k then (k', vs ++ [v]) :: rest else (k', vs) :: assocAppend k v rest

/-- Bucket lookup (`Map.get`). -/
def assocFind {α : Type} : List (String × List α) → String → Option (List α)
  | [], _ => none
  | (k', vs) :: rest, k => if k' = k then some vs else assocFind rest k

/-- Everything before `${children}` in `Layout.render`
(`src/components/layout.ts`). -/
def layoutPre (title : String) (description keywords : Option String)
    (cssFiles jsFiles : List String) (basePath : String) : String :=
  "<!DOCTYPE html>\n<html lang=\"en\">\n<head>\n    <meta charset=\"UTF-8\">\n" ++
    "    <meta name=\"viewport\" content=\"width=device-width, initial-scale=1.0\">\n    " ++
    (match description with
     | some s =>
       if s = "" then ""
       else "<meta name=\"description\" content=\"" ++ s ++ "\">"
     | none => "") ++
    "\n    " ++
    (match keywords with
     | some s =>
       if s = "" then "" else "<meta name=\"keywords\" content=\"" ++ s ++ "\">"
     | none => "") ++
    "\n    <meta name=\"base-path\" content=\"" ++ basePath ++ "\">\n    <title>" ++
    title ++ "</title>\n    <link rel=\"stylesheet\" href=\"" ++ basePath ++
    "/assets/main.css\">\n" ++
    String.intercalate "\n"
      (cssFiles.map fun f => "    <link rel=\"stylesheet\" href=\"" ++ f ++ "\">") ++
    "\n" ++
    String.intercalate "\n"
      (jsFiles.map fun f => "    <script src=\"" ++ f ++ "\"></script>") ++
    "\n</head>\n<body class=\"min-h-screen bg-gray-50\">\n" ++
    "    <div id=\"app\" class=\"flex flex-col min-h-screen\">\n        "

/-- Everything after `${children}` in `Layout.render`. -/
def layoutPost (siteLabels : List String) (basePath : String) : String :=
  "\n        " ++
    (if siteLabels.length > 0 then labelFooterRender siteLabels else "") ++
    "\n    </div>\n    <script src=\"" ++ basePath ++
    "/assets/main.js\"></script>\n</body>\n</html>"

/-- `Layout.render` (`src/components/layout.ts`): the full document
shell around `children`. -/
def layoutRender (title : String) (description keywords : Option String)
    (children : String) (cssFiles jsFiles : List String)
    (siteLabels : List String) (basePath : String) : String :=
  layoutPre title description keywords cssFiles jsFiles basePath ++ children ++
    layoutPost siteLabels basePath

/-- `PageData` consumed by `TemplateEngine.renderPage`
(`src/core/template.ts`). -/
structure PageData where
  title : String
  content : String
  path : String
  description : Option String := none
  keywords : Option String := none
  frontmatter : FmData := []
  navigation : Option (List NavItem) := none
  cssFiles : List String := []
  jsFiles : List String := []
  siteLabels : List String := []
  basePath : String := ""

deriving DecidableEq

/-- The `<main>` opening wrapper used by `renderPage`. -/
def mainOpen : String :=
  "<main class=\"flex-grow max-w-7xl mx-auto px-4 sm:px-6 lg:px-8 py-8\">"

/-- `TemplateEngine.renderPage` (`src/core/template.ts`): prefer the
frontmatter's own title/description/keywords, wrap the content in a
`<main>` (prefixed by the navigation bar when present), and delegate to
`Layout.render`. -/
def renderPage (data : PageData) : String :=
  let pageTitle :=
    if ¬ jsFalsy (fmGet data.frontmatter "title") then
      jsValToString ((fmGet data.frontmatter "title").getD FmVal.null)
    else data.title
  let pageDescription :=
    if ¬ jsFalsy (fmGet data.frontmatter "description") then
      some (jsValToString ((fmGet data.frontmatter "description").getD FmVal.null))
    else data.description
  let pageKeywords :=
    if (match data.keywords with | some k => decide (k ≠ "") | none => false) then
      data.keywords
    else
      match fmGet data.frontmatter "Keywords" with
      | some (FmVal.arr l) => some (String.intercalate ", " l)
      | some (FmVal.str s) => some s
      | some (FmVal.num n) => some (toString n)
      | _ => none
  let pageContent :=
    match data.navigation with
    | some nav =>
      if nav.length > 0 then
        navigationRender nav ++ "\n" ++ mainOpen ++ data.content ++ "</main>"
      else mainOpen ++ data.content ++ "</main>"
    | none => mainOpen ++ data.content ++ "</main>"
  layoutRender pageTitle pageDescription pageKeywords pageContent
    data.cssFiles data.jsFiles data.siteLabels data.basePath

/-- `PageIndexEntry` (`src/core/page-index.ts`, also declared by the
client bundle): url, title, description, labels, category, date. -/
structure PageIndexEntry where
  url : String
  title : String
  description : String
  labels : List String
  category : String
  date : Option String

deriving DecidableEq

/-- Modelled from the spec (§4.6, binding contract): `generateLabelSlug`
from `src/core/page-index.ts` (not in the snapshot) — the shared slug
pipeline. -/
def generateLabelSlug (text : String) : String := ⟨slugPipeline text.data⟩

/-- Modelled from the spec (§4.6): `LabelIndex.render` from
`src/components/label-index.ts` (not in the snapshot) — the aggregated
listing for one label, containing every member page's linked title,
description, category and date. -/
def labelIndexRender (label : String) (pages : List PageIndexEntry) : String :=
  "<h1>Label: " ++ label ++ "</h1><ul>" ++
    concatAll (pages.map fun p =>
      "<li><a href=\"" ++ p.url ++ "\">" ++ p.title ++ "</a><p>" ++
        p.description ++ "</p></li>") ++
    "</ul>"

/-- The label-to-members grouping built by `generateLabelIndexPages`
(`src/core/builder.ts:320`): JavaScript `Map` insertion order. -/
def labelGroups (entries : List PageIndexEntry) :
    List (String × List PageIndexEntry) :=
  entries.foldl
    (fun acc e => e.labels.foldl (fun acc2 lab => assocAppend lab e acc2) acc)
    []

/-- `SiteBuilder.generateLabelIndexPages` (`src/core/builder.ts:314`):
one rendered listing page per label with two or more member pages, at
`label/<slug>/index.html`. -/
def generateLabelIndexPages (basePath : String)
    (pageIndex : List PageIndexEntry) (navigation : List NavItem)
    (siteLabels : List String) : List (String × String) :=
  (labelGroups pageIndex).filterMap fun p =>
    if p.2.length < 2 then none
    else
      some ("label/" ++ generateLabelSlug p.1 ++ "/index.html",
        renderPage
          { title := "Label: " ++ p.1
            description := some ("All pages tagged with \"" ++ p.1 ++ "\"")
            content := labelIndexRender p.1 p.2
            path := "label/" ++ generateLabelSlug p.1
            navigation := some navigation
            siteLabels := siteLabels
            basePath := basePath })

/-- The full HTML of the listing page generated for one label: the
rendered label index wrapped in the page layout. -/
def labelPageHtml (basePath : String) (navigation : List NavItem)
    (siteLabels : List String) (pageIndex : List PageIndexEntry)
    (lab : String) : String :=
  renderPage
    { title := "Label: " ++ lab
      description := some ("All pages tagged with \"" ++ lab ++ "\"")
      content := labelIndexRender lab (pageIndex.filter fun e => lab ∈ e.labels)
      path := "label/" ++ generateLabelSlug lab
      navigation := some navigation
      siteLabels := siteLabels
      basePath := basePath }

/-- The step function of `labelGroups`. -/
def labelStep (acc : List (String × List PageIndexEntry)) (e : PageIndexEntry) :
    List (String × List PageIndexEntry) :=
  e.labels.foldl (fun acc2 lab => assocAppend lab e acc2) acc

/-- The spec's label example: `shared` on two pages, `solo` on one. -/
def pageOneEntry : PageIndexEntry :=
  { url := "/page-one", title := "Page One", description := "First page"
    labels := ["shared"], category := "", date := none }

def pageTwoEntry : PageIndexEntry :=
  { url := "/page-two", title := "Page Two", description := "Second page"
    labels := ["shared"], category := "", date := none }

def soloEntry : PageIndexEntry :=
  { url := "/solo", title := "Solo Page", description := "Alone"
    labels := ["solo"], category := "", date := none }

/-- A single page that carries the same label twice (`Labels` is parsed
with `value.map(String)`, so YAML duplicates survive into the page
index). -/
def dupEntry : PageIndexEntry :=
  { url := "/dup-page", title := "Dup Page", description := "Repeats a label"
    labels := ["dup", "dup"], category := "", date := none }

/-- The flat metadata records of the parseable documents. -/
def metasOf (docs : List Doc) : List PageMetadata :=
  docs.filterMap fun d => (parsePageMetadataDoc d).toOption

/-- The `Parent` reference of a page, by Short-URI. -/
def parentOf (ms : List PageMetadata) (uri : String) : Option String :=
  (List.find? (fun m => m.shortUri = uri) ms).map PageMetadata.parent

/-- Whether `a` lies strictly below `anc` in the parent hierarchy
(bounded walk up the `Parent` chain). -/
def isDescendant (ms : List PageMetadata) : Nat → String → String → Bool
  | 0, _, _ => false
  | fuel + 1, a, anc =>
    match parentOf ms a with
    | none => false
    | some p => if p = anc then true else if p = "root" then false else isDescendant ms fuel p anc

/-- `about.md`: a root-level page. -/
def docAbout : Doc :=
  { relativePath := "about.md"
    fm := some [("Short-URI", FmVal.str "about"), ("title", FmVal.str "About"),
                ("Parent", FmVal.str "root"), ("Order", FmVal.num 1)]
    body := "# About" }

/-- `about/team.md`: path-nested under `about/` but hierarchically a
root child, not a descendant of `about`. -/
def docTeam : Doc :=
  { relativePath := "about/team.md"
    fm := some [("Short-URI", FmVal.str "team"), ("title", FmVal.str "Team"),
                ("Parent", FmVal.str "root"), ("Order", FmVal.num 2)]
    body := "# Team" }

/-! ## C1: the output-path mapping -/

lemma posixBasename_md (q : List Char) :
    posixBasename (q ++ ['.', 'm', 'd']) = posixBasename q ++ ['.', 'm', 'd'] := by
  unfold posixBasename
  rw [List.reverse_append]
  simp [List.takeWhile_cons]

lemma posixBasename_ne_nil (q : List Char) (c : Char) (t : List Char)
    (hrev : q.reverse = c :: t) (hc : c ≠ '/') : posixBasename q ≠ [] := by
  unfold posixBasename
  rw [hrev]
  simp [List.takeWhile_cons, hc]

lemma lastDotSuffix_md (r : List Char) :
    lastDotSuffix (r ++ ['.', 'm', 'd']) = ['m', 'd'] := by
  unfold lastDotSuffix
  rw [List.reverse_append]
  simp [List.takeWhile_cons]

lemma extOfBasename_md (r : List Char) (hr : r ≠ []) :
    extOfBasename (r ++ ['.', 'm', 'd']) = ['.', 'm', 'd'] := by
  unfold extOfBasename
  rw [lastDotSuffix_md]
  rw [if_pos (by simp : '.' ∈ r ++ ['.', 'm', 'd'])]
  have hlen : (r ++ ['.', 'm', 'd']).length - (['m', 'd'] : List Char).length - 1
      = r.length := by simp
  rw [hlen, List.take_left' rfl, if_neg hr]

/-- `extname` of a content-file path whose final component is not the bare
dotfile `.md` is `.md`. -/
lemma extname_md (q : List Char) (c : Char) (t : List Char)
    (hrev : q.reverse = c :: t) (hc : c ≠ '/') :
    extname ⟨q ++ ['.', 'm', 'd']⟩ = ".md" := by
  unfold extname
  rw [show (⟨q ++ ['.', 'm', 'd']⟩ : String).data = q ++ ['.', 'm', 'd'] from rfl,
    posixBasename_md, extOfBasename_md _ (posixBasename_ne_nil q c t hrev hc)]

/-- C1, code side equals spec side away from the dotfile corner case. -/
lemma getOutputPath_eq_spec (p : String)
    (hmd : ['.', 'm', 'd'] <:+ p.data)
    (hdot : ¬ (['/', '.', 'm', 'd'] <:+ p.data)) :
    getOutputPath p = specOutputPath p := by
  obtain ⟨q, hqp⟩ := hmd
  obtain ⟨s⟩ := p
  simp only [String.data] at hqp
  subst hqp
  rcases hrev : q.reverse with _ | ⟨c, t⟩
  · have hq : q = [] := List.reverse_eq_nil_iff.mp hrev
    subst hq
    decide
  · have hq : q = t.reverse ++ [c] := by
      have h2 := congrArg List.reverse hrev
      simpa using h2
    by_cases hc : c = '/'
    · exact absurd ⟨t.reverse, by rw [hq, hc]; simp⟩ hdot
    · have hext : extname ⟨q ++ ['.', 'm', 'd']⟩ = ".md" :=
        extname_md q c t hrev hc
      unfold getOutputPath specOutputPath
      rw [hext]
      simp

/-- **C1** (amended). For every content-file relative path whose final
component is not the bare dotfile `.md`, `getOutputPath` strips the `.md`
extension, normalizes backslashes to slashes, and returns `<base>.html`
when the base is exactly `index` or ends in `/index`, else
`<base>/index.html`; in particular `about.md ↦ about/index.html`,
`blog/index.md ↦ blog/index.html`, `blog/post.md ↦ blog/post/index.html`. -/
theorem getOutputPath_clean_urls :
    (∀ p : String, ['.', 'm', 'd'] <:+ p.data →
      ¬ (['/', '.', 'm', 'd'] <:+ p.data) →
      getOutputPath p = specOutputPath p) ∧
    getOutputPath "about.md" = "about/index.html" ∧
    getOutputPath "blog/index.md" = "blog/index.html" ∧
    getOutputPath "blog/post.md" = "blog/post/index.html" ∧
    getOutputPath "blog/tutorials/index.md" = "blog/tutorials/index.html" ∧
    getOutputPath "index.md" = "index.html" :=
  ⟨getOutputPath_eq_spec, by decide, by decide, by decide, by decide, by decide⟩

/-- Witness for C1: the equivalence applied at the concrete path
`blog/post.md`, hypotheses discharged by evaluation. -/
theorem getOutputPath_clean_urls_witness :
    getOutputPath "blog/post.md" = specOutputPath "blog/post.md" :=
  getOutputPath_clean_urls.1 "blog/post.md" (by decide) (by decide)

/-- **C1** counterexample: the claim quantifies over every content-file
relative path, but for the dotfile-named file `docs/.md` Node's `extname`
is empty, `slice(0, -0)` truncates the whole path, and the code returns
`/index.html` while the claimed formula gives `docs//index.html`. -/
theorem getOutputPath_dotfile_counterexample :
    getOutputPath "docs/.md" = "/index.html" ∧
    specOutputPath "docs/.md" = "docs//index.html" ∧
    getOutputPath "docs/.md" ≠ specOutputPath "docs/.md" :=
  ⟨by decide, by decide, by decide⟩

lemma processTags_nil (ctx : TemplateContext) : processTags ctx [] = [] := by
  rw [processTags]
  split
  next n r h' =>
    rw [show tryTag ([] : List Char) = none from by decide] at h'
    cases h'
  next => rfl

lemma processTags_cons_none (ctx : TemplateContext) (c : Char) (cs : List Char)
    (h : tryTag (c :: cs) = none) :
    processTags ctx (c :: cs) = c :: processTags ctx cs := by
  rw [processTags]
  split
  next n r h' => rw [h] at h'; cases h'
  next => rfl

/-! ## C5: conditionals resolve before placeholders -/

lemma tryTag_none_head (c : Char) (cs : List Char) (hc : c ≠ '{') :
    tryTag (c :: cs) = none := by
  rw [tryTag, if_neg]
  intro hctr
  rw [List.take_succ_cons] at hctr
  exact hc (List.cons.injEq .. ▸ hctr).1

lemma processTags_no_brace (ctx : TemplateContext) (m : List Char)
    (hm : ∀ c ∈ m, c ≠ '{') : processTags ctx m = m := by
  induction m with
  | nil => exact processTags_nil ctx
  | cons c cs ih =>
    rw [processTags_cons_none _ _ _
      (tryTag_none_head c cs (hm c (List.mem_cons_self c cs)))]
    rw [ih fun x hx => hm x (List.mem_cons_of_mem c hx)]

/-- **C4**. The build-time `generateSlug` and the client-side `labelSlug`
are extensionally equal: both lowercase, trim, collapse runs of
non-`[a-z0-9]` to a single hyphen, and trim boundary hyphens; sample
evaluations ground the common behaviour. -/
theorem slug_functions_agree :
    (∀ text : String, generateSlug text = labelSlug text) ∧
    generateSlug "C++ & C# Programming!" = "c-c-programming" ∧
    labelSlug "  Deep  Dives " = "deep-dives" ∧
    generateSlug "shared-label" = "shared-label" :=
  ⟨fun _ => rfl, by decide, by decide, by decide⟩

/-! ## C7: navigation generation and the comparator's order theory -/

lemma navLe_iff (a b : NavItem) :
    navLe a b ↔
      a.order.getD 999 < b.order.getD 999 ∨
        (a.order.getD 999 = b.order.getD 999 ∧ a.label ≤ b.label) := by
  unfold navLe navCompare localeCompareModel
  rcases eq_or_ne (a.order.getD 999) (b.order.getD 999) with ho | ho
  · rw [if_neg (by omega)]
    split_ifs with h1 h2
    · simp [ho, le_of_lt h1]
    · have : ¬ a.label ≤ b.label := not_le.mpr h2
      simp [ho, this]
    · have : a.label ≤ b.label := not_lt.mp h2
      simp [ho, this]
  · rw [if_pos (by omega)]
    constructor
    · intro h; exact Or.inl (by omega)
    · rintro (h | ⟨h, _⟩) <;> omega

lemma navLe_total : ∀ a b : NavItem, navLe a b ∨ navLe b a := by
  intro a b
  rw [navLe_iff, navLe_iff]
  rcases lt_trichotomy (a.order.getD 999) (b.order.getD 999) with h | h | h
  · exact Or.inl (Or.inl h)
  · rcases le_total a.label b.label with hl | hl
    · exact Or.inl (Or.inr ⟨h, hl⟩)
    · exact Or.inr (Or.inr ⟨h.symm, hl⟩)
  · exact Or.inr (Or.inl h)

lemma navLe_trans : ∀ a b c : NavItem, navLe a b → navLe b c → navLe a c := by
  intro a b c hab hbc
  rw [navLe_iff] at hab hbc ⊢
  rcases hab with h1 | ⟨h1, h1'⟩ <;> rcases hbc with h2 | ⟨h2, h2'⟩
  · exact Or.inl (h1.trans h2)
  · exact Or.inl (h2 ▸ h1)
  · exact Or.inl (h1 ▸ h2)
  · exact Or.inr ⟨h1.trans h2, h1'.trans h2'⟩

/-- **C7**. `generateNavigation` yields exactly one item per parseable
root-parented page (a permutation of the per-page items), sorted by the
ascending order-then-title comparator; an absent `Parent` also counts as
root; and the spec's `home`/`blog` example comes out `[home, blog]`. -/
theorem generateNavigation_root_sorted :
    (∀ (basePath : String) (docs : List Doc),
      (generateNavigation basePath docs).Perm
          (docs.filterMap (rootNavItem basePath)) ∧
        List.Sorted navLe (generateNavigation basePath docs)) ∧
    (parsePageMetadata [("Short-URI", FmVal.str "x")]).map PageMetadata.parent
      = Except.ok "root" ∧
    generateNavigation "" [docBlogNav, docHomeNav] =
      [{ label := "Home", href := "/home", order := some 1 },
       { label := "Blog", href := "/blog", order := some 2 }] := by
  haveI : IsTotal NavItem navLe := ⟨navLe_total⟩
  haveI : IsTrans NavItem navLe := ⟨navLe_trans⟩
  exact ⟨fun basePath docs =>
    ⟨List.perm_insertionSort navLe _, List.sorted_insertionSort navLe _⟩,
   by decide, by decide⟩

/-! ## C8: soft-skip of unparseable metadata -/

lemma nav_labels_skip (basePath : String) (pre post : List Doc)
    (d : Doc) (e : String) (hd : parsePageMetadataDoc d = Except.error e) :
    generateNavigation basePath (pre ++ d :: post)
        = generateNavigation basePath (pre ++ post) ∧
      collectSiteLabels (pre ++ d :: post) = collectSiteLabels (pre ++ post) := by
  have hnav : rootNavItem basePath d = none := by
    unfold rootNavItem
    rw [hd]
  constructor
  · unfold generateNavigation
    rw [List.filterMap_append, List.filterMap_cons, hnav, List.filterMap_append]
  · unfold collectSiteLabels
    rw [List.map_append, List.map_cons, hd, List.map_append]
    simp

/-- **C8**. Inserting a document whose metadata cannot be parsed changes
neither the generated navigation nor the site-wide label set: the bad
document is skipped (both loops catch per-file parse errors) and every
other document is still processed; both functions are total, so the
build does not abort. -/
theorem metadata_soft_skip (basePath : String) (pre post : List Doc)
    (d : Doc) (e : String) (hd : parsePageMetadataDoc d = Except.error e) :
    generateNavigation basePath (pre ++ d :: post)
        = generateNavigation basePath (pre ++ post) ∧
      collectSiteLabels (pre ++ d :: post) = collectSiteLabels (pre ++ post) :=
  nav_labels_skip basePath pre post d e hd

/-- Witness for C8: the soft-skip applied to a concrete document set
around the un-normalizable `broken.md`. -/
theorem metadata_soft_skip_witness :
    generateNavigation "" ([docHomeNav] ++ docNoShortUri :: [docBlogNav])
        = generateNavigation "" ([docHomeNav] ++ [docBlogNav]) ∧
      collectSiteLabels ([docHomeNav] ++ docNoShortUri :: [docBlogNav])
        = collectSiteLabels ([docHomeNav] ++ [docBlogNav]) :=
  metadata_soft_skip "" [docHomeNav] [docBlogNav] docNoShortUri
    "Short-URI is required" (by decide)

/-! ## C9: invalid metadata never blocks rendering -/

lemma strInfix_ext_left (s : List Char) (t u : String) (h : s <:+: t.data) :
    s <:+: (u ++ t).data := by
  rw [String.data_append]
  exact h.trans (List.suffix_append u.data t.data).isInfix

lemma strInfix_ext_right (s : List Char) (t u : String) (h : s <:+: t.data) :
    s <:+: (t ++ u).data := by
  rw [String.data_append]
  exact h.trans (List.prefix_append t.data u.data).isInfix

lemma concatAll_piece (l : List String) (x : String) (hx : x ∈ l) :
    x.data <:+: (concatAll l).data := by
  induction l with
  | nil => cases hx
  | cons a as ih =>
    have hdata : (concatAll (a :: as)).data = a.data ++ (concatAll as).data := by
      unfold concatAll
      simp
    rw [hdata]
    rcases List.mem_cons.mp hx with rfl | hx'
    · exact (List.prefix_append x.data (concatAll as).data).isInfix
    · exact (ih hx').trans (List.suffix_append a.data (concatAll as).data).isInfix

section LabelGrouping

variable {α : Type}

lemma assocAppend_keys (k : String) (v : α) (m : List (String × List α)) :
    (assocAppend k v m).map Prod.fst =
      if k ∈ m.map Prod.fst then m.map Prod.fst else m.map Prod.fst ++ [k] := by
  induction m with
  | nil => simp [assocAppend]
  | cons p rest ih =>
    obtain ⟨k', vs⟩ := p
    rw [assocAppend]
    by_cases hk : k' = k
    · subst hk
      simp
    · rw [if_neg hk, List.map_cons, List.map_cons, ih]
      by_cases hmem : k ∈ rest.map Prod.fst
      · rw [if_pos hmem,
          if_pos (List.mem_cons_of_mem k' hmem)]
      · rw [if_neg hmem, if_neg (by
          intro hx
          rcases List.mem_cons.mp hx with h | h
          · exact hk h.symm
          · exact hmem h)]
        rfl

lemma assocFind_append_same (k : String) (v : α) (m : List (String × List α)) :
    assocFind (assocAppend k v m) k = some ((assocFind m k).getD [] ++ [v]) := by
  induction m with
  | nil => simp [assocAppend, assocFind]
  | cons p rest ih =>
    obtain ⟨k', vs⟩ := p
    rw [assocAppend]
    by_cases hk : k' = k
    · subst hk
      rw [if_pos rfl, assocFind, if_pos rfl, assocFind, if_pos rfl]
      rfl
    · rw [if_neg hk, assocFind, if_neg hk, assocFind, if_neg hk, ih]

lemma assocFind_append_other (k k' : String) (v : α)
    (m : List (String × List α)) (hne : k' ≠ k) :
    assocFind (assocAppend k v m) k' = assocFind m k' := by
  induction m with
  | nil =>
    rw [assocAppend]
    simp only [assocFind]
    rw [if_neg (fun h => hne h.symm)]
  | cons p rest ih =>
    obtain ⟨k0, vs⟩ := p
    rw [assocAppend]
    by_cases hk : k0 = k
    · subst hk
      rw [if_pos rfl, assocFind, assocFind]
      by_cases h0 : k0 = k'
      · exact absurd h0.symm (by simpa using hne)
      · rw [if_neg h0, if_neg h0]
    · rw [if_neg hk, assocFind, assocFind]
      by_cases h0 : k0 = k'
      · rw [if_pos h0, if_pos h0]
      · rw [if_neg h0, if_neg h0, ih]

/-- The effect on lookups of folding one entry's label list into the
grouping. -/
lemma assocFold_labels_find (e : α) :
    ∀ (labs : List String), labs.Nodup → ∀ (acc : List (String × List α))
      (lab : String),
      assocFind (labs.foldl (fun a l => assocAppend l e a) acc) lab =
        if lab ∈ labs then some ((assocFind acc lab).getD [] ++ [e])
        else assocFind acc lab := by
  intro labs
  induction labs with
  | nil => intro _ acc lab; simp
  | cons l ls ih =>
    intro hnd acc lab
    rw [List.foldl_cons, ih (List.nodup_cons.mp hnd).2]
    by_cases hmem : lab ∈ ls
    · rw [if_pos hmem, if_pos (List.mem_cons_of_mem l hmem)]
      have hne : lab ≠ l := fun h =>
        (List.nodup_cons.mp hnd).1 (h ▸ hmem)
      rw [assocFind_append_other l lab e acc hne]
    · rw [if_neg hmem]
      by_cases heq : lab = l
      · subst heq
        rw [if_pos (List.mem_cons_self lab ls), assocFind_append_same]
      · rw [if_neg (by simp [heq, hmem]), assocFind_append_other l lab e acc heq]

lemma labelGroups_find (entries : List PageIndexEntry)
    (hnd : ∀ e ∈ entries, e.labels.Nodup) :
    ∀ (acc : List (String × List PageIndexEntry)) (lab : String),
      assocFind (entries.foldl labelStep acc) lab =
        if (entries.filter fun e => lab ∈ e.labels) = [] then assocFind acc lab
        else some ((assocFind acc lab).getD [] ++
          (entries.filter fun e => lab ∈ e.labels)) := by
  induction entries with
  | nil => intro acc lab; simp
  | cons x xs ih =>
    intro acc lab
    rw [List.foldl_cons]
    rw [ih (fun e he => hnd e (List.mem_cons_of_mem x he))]
    have hstep : assocFind (labelStep acc x) lab =
        if lab ∈ x.labels then some ((assocFind acc lab).getD [] ++ [x])
        else assocFind acc lab :=
      assocFold_labels_find x x.labels (hnd x (List.mem_cons_self x xs)) acc lab
    by_cases hx : lab ∈ x.labels
    · rw [List.filter_cons_of_pos (by simpa using hx),
        if_neg (List.cons_ne_nil x _)]
      by_cases hxs : (xs.filter fun e => lab ∈ e.labels) = []
      · rw [if_pos hxs, hstep, if_pos hx, hxs]
      · rw [if_neg hxs, hstep, if_pos hx]
        simp
    · rw [List.filter_cons_of_neg (by simpa using hx), hstep, if_neg hx]

lemma foldl_ins_mem (x : String) :
    ∀ (l ks : List String),
      x ∈ l.foldl (fun acc y => if y ∈ acc then acc else acc ++ [y]) ks ↔
        x ∈ ks ∨ x ∈ l := by
  intro l
  induction l with
  | nil => intro ks; simp
  | cons a as ih =>
    intro ks
    rw [List.foldl_cons, ih]
    by_cases ha : a ∈ ks
    · rw [if_pos ha]
      constructor
      · rintro (h | h)
        · exact Or.inl h
        · exact Or.inr (List.mem_cons_of_mem a h)
      · rintro (h | h)
        · exact Or.inl h
        · rcases List.mem_cons.mp h with rfl | h'
          · exact Or.inl ha
          · exact Or.inr h'
    · rw [if_neg ha]
      simp only [List.mem_append, List.mem_singleton, List.mem_cons]
      tauto

lemma foldl_ins_nodup :
    ∀ (l ks : List String), ks.Nodup →
      (l.foldl (fun acc y => if y ∈ acc then acc else acc ++ [y]) ks).Nodup := by
  intro l
  induction l with
  | nil => intro ks h; exact h
  | cons a as ih =>
    intro ks h
    rw [List.foldl_cons]
    by_cases ha : a ∈ ks
    · rw [if_pos ha]; exact ih ks h
    · rw [if_neg ha]
      exact ih _ (by simp [List.nodup_append, h, ha])

lemma dedupKeepFirst_mem (x : String) (l : List String) :
    x ∈ dedupKeepFirst l ↔ x ∈ l := by
  unfold dedupKeepFirst
  rw [foldl_ins_mem]
  simp

lemma dedupKeepFirst_nodup (l : List String) : (dedupKeepFirst l).Nodup :=
  foldl_ins_nodup l [] List.nodup_nil

/-- The keys of one entry-fold step are the deduplicating fold of its
labels. -/
lemma labelStep_keys (e : PageIndexEntry) :
    ∀ (labs : List String) (acc : List (String × List PageIndexEntry)),
      ((labs.foldl (fun a l => assocAppend l e a) acc).map Prod.fst) =
        labs.foldl (fun ks y => if y ∈ ks then ks else ks ++ [y])
          (acc.map Prod.fst) := by
  intro labs
  induction labs with
  | nil => intro acc; rfl
  | cons l ls ih =>
    intro acc
    rw [List.foldl_cons, List.foldl_cons, ih, assocAppend_keys]

lemma labelGroups_keys (entries : List PageIndexEntry) :
    ∀ acc, ((entries.foldl labelStep acc).map Prod.fst) =
      ((entries.map PageIndexEntry.labels).flatten).foldl
        (fun ks y => if y ∈ ks then ks else ks ++ [y]) (acc.map Prod.fst) := by
  induction entries with
  | nil => intro acc; rfl
  | cons x xs ih =>
    intro acc
    rw [List.foldl_cons, ih, List.map_cons, List.flatten_cons,
      List.foldl_append]
    rw [labelStep, labelStep_keys]

/-- Reconstruction: an association list with the given distinct keys and
lookups is the map over its keys. -/
lemma assoc_reconstruct (v : String → List α) :
    ∀ (m : List (String × List α)) (ks : List String),
      m.map Prod.fst = ks → ks.Nodup →
      (∀ k ∈ ks, assocFind m k = some (v k)) →
      m = ks.map fun k => (k, v k) := by
  intro m
  induction m with
  | nil =>
    intro ks hk _ _
    rw [← hk]
    rfl
  | cons p rest ih =>
    intro ks hk hnd hfind
    obtain ⟨k0, vs⟩ := p
    rcases ks with _ | ⟨k1, ks'⟩
    · cases hk
    · have hk0 : k0 = k1 := by
        have := congrArg List.head? hk
        simpa using this
      subst hk0
      have hrest : rest.map Prod.fst = ks' := by
        have := congrArg List.tail hk
        simpa using this
      have hv : vs = v k0 := by
        have := hfind k0 (List.mem_cons_self k0 ks')
        rw [assocFind, if_pos rfl] at this
        exact (Option.some.inj this)
      have htail : rest = ks'.map fun k => (k, v k) := by
        apply ih ks' hrest (List.nodup_cons.mp hnd).2
        intro k hkmem
        have hne : k0 ≠ k := fun h =>
          (List.nodup_cons.mp hnd).1 (h ▸ hkmem)
        have := hfind k (List.mem_cons_of_mem k0 hkmem)
        rw [assocFind, if_neg hne] at this
        exact this
      rw [List.map_cons, ← hv, ← htail]

/-- `labelGroups` characterized: keys are the labels in first-occurrence
order, each grouped with exactly the entries that carry it. -/
lemma labelGroups_spec (entries : List PageIndexEntry)
    (hnd : ∀ e ∈ entries, e.labels.Nodup) :
    labelGroups entries =
      (dedupKeepFirst ((entries.map PageIndexEntry.labels).flatten)).map
        fun lab => (lab, entries.filter fun e => lab ∈ e.labels) := by
  have hgl : labelGroups entries = entries.foldl labelStep [] := rfl
  rw [hgl]
  apply assoc_reconstruct _ _ _ ?_ (dedupKeepFirst_nodup _) ?_
  · rw [labelGroups_keys entries []]
    rfl
  · intro lab hlab
    rw [labelGroups_find entries hnd [] lab]
    have hne : (entries.filter fun e => lab ∈ e.labels) ≠ [] := by
      intro hnil
      rw [dedupKeepFirst_mem] at hlab
      obtain ⟨ls, hls, hmem⟩ := List.mem_flatten.mp hlab
      obtain ⟨e, he, rfl⟩ := List.mem_map.mp hls
      have := List.filter_eq_nil_iff.mp hnil e he
      simp [hmem] at this
    rw [if_neg hne]
    rfl

end LabelGrouping

lemma filterMap_guard {α β : Type} (P : α → Bool) (g : α → β) :
    ∀ l : List α,
      (l.filterMap fun a => if P a then some (g a) else none) =
        (l.filter P).map g := by
  intro l
  induction l with
  | nil => rfl
  | cons a as ih =>
    rw [List.filterMap_cons]
    by_cases hp : P a
    · rw [if_pos hp, List.filter_cons_of_pos hp, List.map_cons, ih]
    · rw [if_neg hp, List.filter_cons_of_neg (by simpa using hp), ih]

lemma labelIndexRender_contains_title (lab : String)
    (pages : List PageIndexEntry) (e : PageIndexEntry) (he : e ∈ pages) :
    e.title.data <:+: (labelIndexRender lab pages).data := by
  unfold labelIndexRender
  apply strInfix_ext_right
  apply strInfix_ext_left
  have hitem : e.title.data <:+:
      ("<li><a href=\"" ++ e.url ++ "\">" ++ e.title ++ "</a><p>" ++
        e.description ++ "</p></li>").data := by
    apply strInfix_ext_right
    apply strInfix_ext_right
    apply strInfix_ext_right
    exact strInfix_ext_left _ _ _ (List.infix_refl _)
  exact hitem.trans (concatAll_piece _ _ (List.mem_map_of_mem _ he))

lemma layout_contains_children (title : String) (description keywords : Option String)
    (children : String) (cssFiles jsFiles : List String)
    (siteLabels : List String) (basePath : String) :
    children.data <:+:
      (layoutRender title description keywords children cssFiles jsFiles
        siteLabels basePath).data := by
  unfold layoutRender
  exact strInfix_ext_right _ _ _ (strInfix_ext_left _ _ _ (List.infix_refl _))

lemma renderPage_contains_content (pd : PageData) :
    pd.content.data <:+: (renderPage pd).data := by
  unfold renderPage
  simp only
  refine List.IsInfix.trans ?_ (layout_contains_children _ _ _ _ _ _ _ _)
  split
  · split_ifs <;>
      exact strInfix_ext_right _ _ _
        (strInfix_ext_left _ _ _ (List.infix_refl _))
  · exact strInfix_ext_right _ _ _
      (strInfix_ext_left _ _ _ (List.infix_refl _))

lemma generateLabelIndexPages_eq (basePath : String)
    (pageIndex : List PageIndexEntry) (navigation : List NavItem)
    (siteLabels : List String) (hnd : ∀ e ∈ pageIndex, e.labels.Nodup) :
    generateLabelIndexPages basePath pageIndex navigation siteLabels =
      ((dedupKeepFirst ((pageIndex.map PageIndexEntry.labels).flatten)).filter
          fun lab => 2 ≤ (pageIndex.filter fun e => lab ∈ e.labels).length).map
        fun lab =>
          ("label/" ++ generateLabelSlug lab ++ "/index.html",
            labelPageHtml basePath navigation siteLabels pageIndex lab) := by
  unfold generateLabelIndexPages
  rw [labelGroups_spec pageIndex hnd, List.filterMap_map]
  rw [List.filterMap_congr (g := fun lab =>
    if (2 ≤ (pageIndex.filter fun e => lab ∈ e.labels).length : Bool) then
      some ("label/" ++ generateLabelSlug lab ++ "/index.html",
        labelPageHtml basePath navigation siteLabels pageIndex lab)
    else none)]
  · exact filterMap_guard _ _ _
  · intro lab _
    simp only [Function.comp, labelPageHtml]
    by_cases h2 : 2 ≤ (pageIndex.filter fun e => lab ∈ e.labels).length
    · rw [if_neg (by omega), if_pos (by simpa using h2)]
    · rw [if_pos (by omega), if_neg (by simpa using h2)]

/-- **C3**. A label listing page is written at `label/<slug>/index.html`
exactly for the labels carried by two or more pages (in first-occurrence
order), and that page's HTML contains the title of every member page; a
label carried by exactly one page contributes no listing page. -/
theorem label_pages_for_shared_labels (basePath : String)
    (pageIndex : List PageIndexEntry) (navigation : List NavItem)
    (siteLabels : List String) (hnd : ∀ e ∈ pageIndex, e.labels.Nodup) :
    ((generateLabelIndexPages basePath pageIndex navigation siteLabels).map
        Prod.fst =
      ((dedupKeepFirst ((pageIndex.map PageIndexEntry.labels).flatten)).filter
          (fun lab =>
            2 ≤ (pageIndex.filter fun e => lab ∈ e.labels).length)).map
        fun lab => "label/" ++ generateLabelSlug lab ++ "/index.html") ∧
    ∀ lab, lab ∈ (pageIndex.map PageIndexEntry.labels).flatten →
      2 ≤ (pageIndex.filter fun e => lab ∈ e.labels).length →
      ∃ html,
        ("label/" ++ generateLabelSlug lab ++ "/index.html", html)
            ∈ generateLabelIndexPages basePath pageIndex navigation siteLabels ∧
          ∀ e ∈ pageIndex, lab ∈ e.labels → e.title.data <:+: html.data := by
  constructor
  · rw [generateLabelIndexPages_eq basePath pageIndex navigation siteLabels hnd,
      List.map_map]
    rfl
  · intro lab hflat h2
    refine ⟨labelPageHtml basePath navigation siteLabels pageIndex lab, ?_, ?_⟩
    · rw [generateLabelIndexPages_eq basePath pageIndex navigation siteLabels hnd]
      apply List.mem_map_of_mem
      exact List.mem_filter.mpr
        ⟨(dedupKeepFirst_mem lab _).mpr hflat, by simpa using h2⟩
    · intro e he hel
      have hmem : e ∈ pageIndex.filter fun x => lab ∈ x.labels :=
        List.mem_filter.mpr ⟨he, by simpa using hel⟩
      unfold labelPageHtml
      exact (labelIndexRender_contains_title lab _ e hmem).trans
        (renderPage_contains_content
          { title := "Label: " ++ lab
            description := some ("All pages tagged with \"" ++ lab ++ "\"")
            content := labelIndexRender lab
              (pageIndex.filter fun e => lab ∈ e.labels)
            path := "label/" ++ generateLabelSlug lab
            navigation := some navigation
            siteLabels := siteLabels
            basePath := basePath })

/-- Witness for C3: with labels `{shared: 2 pages, solo: 1 page}` the
only listing page is `label/shared/index.html`, it contains both member
titles, and no page is produced for `solo`. -/
theorem label_pages_for_shared_labels_witness :
    ∃ html,
      ("label/shared/index.html", html)
          ∈ generateLabelIndexPages "" [pageOneEntry, pageTwoEntry, soloEntry] [] [] ∧
        "Page One".data <:+: html.data ∧
        "Page Two".data <:+: html.data ∧
      (generateLabelIndexPages "" [pageOneEntry, pageTwoEntry, soloEntry] [] []).map
          Prod.fst = ["label/shared/index.html"] := by
  have h := label_pages_for_shared_labels ""
    [pageOneEntry, pageTwoEntry, soloEntry] [] [] (by decide)
  obtain ⟨html, hmem, htitles⟩ := h.2 "shared" (by decide) (by decide)
  refine ⟨html, hmem, ?_, ?_, ?_⟩
  · exact htitles pageOneEntry (by decide) (by decide)
  · exact htitles pageTwoEntry (by decide) (by decide)
  · rw [h.1]
    decide

/-- Counterexample for C3's "exactly": a label repeated on a single
page's `Labels` list is pushed once per occurrence by the grouping loop
of `generateLabelIndexPages`, so the label `dup`, carried by exactly one
page, reaches the two-or-more threshold and a listing page is emitted
for it at `label/dup/index.html`. -/
theorem label_single_page_counterexample :
    (generateLabelIndexPages "" [dupEntry] [] ["dup"]).map Prod.fst
        = ["label/dup/index.html"] ∧
      ([dupEntry].filter fun e => decide ("dup" ∈ e.labels)).length = 1 := by
  refine ⟨?_, by decide⟩
  rfl

/-! ## C10: the navigation active-state rule -/

/-- **C10**. A concrete misclassifying pair exists: the URL `/about` of
`about.md` is a proper prefix of the URL `/about/team` of
`about/team.md`; the navigation holds an item with href `/about`; and
when rendering `about/team.md` the mixed matching rule marks that item
active — although `team`'s page is not `about`'s page (distinct
Short-URIs) nor one of its descendants in the parent hierarchy
(`team` is parented directly at root). The literal `/about` versus
`/about-us` shape, by contrast, is classified correctly: the prefix
check appends a slash first. -/
theorem isActivePath_misclassification :
    isActivePath "" "/about" "about/team.md" = true ∧
    isActivePath "" "/about" "about-us.md" = false ∧
    getUrlPath "" "about.md" = "/about" ∧
    getUrlPath "" "about/team.md" = "/about/team" ∧
    "/about".data <+: "/about/team".data ∧
    "/about" ≠ "/about/team" ∧
    (generateNavigation "" [docAbout, docTeam]).map NavItem.href
      = ["/about", "/about/team"] ∧
    (parsePageMetadataDoc docAbout).map PageMetadata.shortUri
      = Except.ok "about" ∧
    (parsePageMetadataDoc docTeam).map PageMetadata.shortUri
      = Except.ok "team" ∧
    (parsePageMetadataDoc docTeam).map PageMetadata.parent
      = Except.ok "root" ∧
    isDescendant (metasOf [docAbout, docTeam]) 2 "team" "about" = false := by
  refine ⟨by decide, by decide, by decide, by decide,
    ⟨"/team".data, by decide⟩,
    by decide, by decide, by decide, by decide, by decide, by decide⟩

